import Mathlib

/-!
Verification of the `BackpropModule` feed-forward network from
`pyperch/neural/backprop_nn.py`.

The module is embedded shallowly:

* tensors are matrices over `ℚ`, written as lists of rows;
* `nn.Linear(a, b)` is `mkLinear a b w bias`, where the fresh parameters are
  drawn from an explicit supply (PyTorch initialises them randomly; here the
  random source is passed in);
* `nn.Dropout(p)` applied in training mode zeroes an entry when its uniform
  sample `u i j ∈ [0,1)` falls below `p` and rescales the survivors by
  `1/(1-p)`; in evaluation mode it is the identity.  The uniform samples are
  an explicit argument;
* activations are opaque functions `Mat → Mat` held in the module, exactly as
  the Python object stores arbitrary `nn.Module` callables;
* Python's `hidden_units` argument is either an `int` or a `list`, modelled by
  the inductive `HiddenUnits`; `isinstance(hidden_units, list)` is the match
  on its constructor;
* `__init__` is `init`, returning `Except PyError BackpropModule`:
  `ValueError` for the explicit configuration check, `IndexError` for
  `self.hidden_units[0]` on an empty list.
-/

abbrev Vec := List ℚ
abbrev Mat := List Vec

/-- A `nn.Linear` unit: weight is an `outFeatures × inFeatures` matrix,
bias a vector of length `outFeatures`. -/
structure LinearLayer where
  inFeatures : Nat
  outFeatures : Nat
  weight : Mat
  bias : Vec
deriving Repr

instance : Inhabited LinearLayer := ⟨⟨0, 0, [], []⟩⟩

/-- Dot product of two rational vectors (the lists have equal length at every
call site reached from a well-shaped batch). -/
def dot (u v : Vec) : ℚ := (List.zipWith (· * ·) u v).sum

/-- Apply a linear unit to one sample: `W x + b`, one entry per output row of
the weight matrix. -/
def LinearLayer.apply (L : LinearLayer) (x : Vec) : Vec :=
  List.zipWith (fun wrow bi => dot wrow x + bi) L.weight L.bias

/-- Apply a linear unit to every sample of a batch (torch broadcasts the
linear map over the leading batch dimension). -/
def LinearLayer.applyBatch (L : LinearLayer) (X : Mat) : Mat :=
  X.map L.apply

/-- `nn.Linear(inF, outF, device=...)`: fresh weight of shape
`outF × inF` and bias of length `outF`, entries drawn from the supply. -/
def mkLinear (inF outF : Nat) (w : Nat → Nat → ℚ) (b : Nat → ℚ) : LinearLayer :=
  { inFeatures := inF
    outFeatures := outF
    weight := (List.range outF).map (fun i => (List.range inF).map (w i))
    bias := (List.range outF).map b }

/-- One row of `nn.Dropout(p)` in training mode: entry `j` is zeroed when its
uniform sample `u j` is below `p`, otherwise rescaled by `1/(1-p)`. -/
def dropoutRow (p : ℚ) (u : Nat → ℚ) : Nat → Vec → Vec
  | _, [] => []
  | j, x :: xs => (if u j < p then 0 else x / (1 - p)) :: dropoutRow p u (j + 1) xs

/-- `nn.Dropout(p)` on a matrix in training mode, sample `u i j` for entry
`(i, j)`. -/
def dropoutMatAux (p : ℚ) (u : Nat → Nat → ℚ) : Nat → Mat → Mat
  | _, [] => []
  | i, r :: rs => dropoutRow p (u i) 0 r :: dropoutMatAux p u (i + 1) rs

/-- `self.dropout(X)`: identity in evaluation mode, stochastic masking (with
the samples made explicit) in training mode. -/
def dropoutApply (training : Bool) (p : ℚ) (u : Nat → Nat → ℚ) (X : Mat) : Mat :=
  if training then dropoutMatAux p u 0 X else X

/-- Python errors surfaced by `BackpropModule.__init__`:
the explicit `ValueError("hidden_units must be a list with length equal to
hidden_layers")` and the `IndexError` from `self.hidden_units[0]`. -/
inductive PyError where
  | valueError
  | indexError
deriving Repr, DecidableEq

/-- The `hidden_units` argument: Python callers pass either a plain `int`
(the documented default is `10`) or a `list` of widths. -/
inductive HiddenUnits where
  | int (n : Int)
  | list (l : List Nat)
deriving Repr, DecidableEq

/-- The constructed module.  Fields mirror the attributes set in
`__init__`; `activation` and `output_activation` are the stored callables,
`layers` the `nn.ModuleList` contents. -/
structure BackpropModule where
  input_dim : Nat
  output_dim : Nat
  hidden_units : HiddenUnits
  hidden_layers : Nat
  dropout_percent : ℚ
  activation : Mat → Mat
  output_activation : Mat → Mat
  layers : List LinearLayer
  device : String

/-- `BackpropModule.__init__`.  The parameter supplies `w`/`b` stand for the
random initialisation of the linear units (`w k` / `b k` feeds unit `k`).
The `isinstance(hidden_units, list)` test is the match on the constructor;
a failing combined check raises `ValueError` (line 55–56 of the source).
After the check `hidden_units` is a list of length `hidden_layers`, so the
index `hidden_units[0]` only fails when that list is empty
(`hidden_layers = 0`), raising `IndexError`; all later indices
(`layer - 1`, `layer` for `1 ≤ layer < hidden_layers`, and `-1`, i.e. the
last entry) are then in range, so total `getD`/`getLast` indexing is
faithful. -/
def init (input_dim output_dim : Nat) (hidden_units : HiddenUnits)
    (hidden_layers : Nat) (dropout_percent : ℚ)
    (activation output_activation : Mat → Mat) (cudaAvailable : Bool)
    (w : Nat → Nat → Nat → ℚ) (b : Nat → Nat → ℚ) :
    Except PyError BackpropModule :=
  let device := if cudaAvailable then "cuda" else "cpu"
  match hidden_units with
  | .int _ => .error .valueError
  | .list hu =>
    if hu.length ≠ hidden_layers then .error .valueError
    else
      match hu with
      | [] => .error .indexError
      | h0 :: rest =>
        -- input layer: nn.Linear(input_dim, hidden_units[0])
        let inputLayer := mkLinear input_dim h0 (w 0) (b 0)
        -- hidden layers: nn.Linear(hidden_units[layer-1], hidden_units[layer])
        -- for layer in range(1, hidden_layers)
        let hiddenLs := (List.range' 1 (hidden_layers - 1)).map
          (fun layer =>
            mkLinear ((h0 :: rest).getD (layer - 1) 0) ((h0 :: rest).getD layer 0)
              (w layer) (b layer))
        -- output layer: nn.Linear(hidden_units[-1], output_dim)
        let outputLayer :=
          mkLinear ((h0 :: rest).getLast (List.cons_ne_nil h0 rest)) output_dim
            (w hidden_layers) (b hidden_layers)
        .ok
          { input_dim := input_dim
            output_dim := output_dim
            hidden_units := hidden_units
            hidden_layers := hidden_layers
            dropout_percent := dropout_percent
            activation := activation
            output_activation := output_activation
            layers := inputLayer :: (hiddenLs ++ [outputLayer])
            device := device }

/-- One hidden stage of `forward`: linear unit `i`, then the activation, then
dropout (`R i` supplies the dropout samples of that call). -/
def hiddenStage (m : BackpropModule) (training : Bool)
    (R : Nat → Nat → Nat → ℚ) (i : Nat) (X : Mat) : Mat :=
  dropoutApply training m.dropout_percent (R i)
    (m.activation ((m.layers.getD i default).applyBatch X))

/-- `BackpropModule.forward`.  `training` is the external train/eval flag of
the module, `R` the stream of uniform dropout samples (`R i` for the dropout
call after linear unit `i`).  The loop `for i in range(1, hidden_layers)` is
the fold over `List.range' 1 (hidden_layers - 1)`; no branch inspects the
data in `X`. -/
def forward (m : BackpropModule) (training : Bool)
    (R : Nat → Nat → Nat → ℚ) (X : Mat) : Mat :=
  -- X = self.dropout(self.activation(self.layers[0](X)))
  let X0 := hiddenStage m training R 0 X
  -- for i in range(1, self.hidden_layers): X = self.dropout(self.activation(self.layers[i](X)))
  let Xh := (List.range' 1 (m.hidden_layers - 1)).foldl
    (fun acc i => hiddenStage m training R i acc) X0
  -- return self.output_activation(self.layers[self.hidden_layers](X))
  m.output_activation ((m.layers.getD m.hidden_layers default).applyBatch Xh)

/-- The Python method mutates only its local `X`; in state-passing form the
method returns the result together with the (unchanged) receiver. -/
def forwardS (m : BackpropModule) (training : Bool)
    (R : Nat → Nat → Nat → ℚ) (X : Mat) : Mat × BackpropModule :=
  (forward m training R X, m)

/-- First `hidden_layers` stages applied in order: index `0`, then indices
`1` through `k`. -/
def stagesUpTo (m : BackpropModule) (training : Bool)
    (R : Nat → Nat → Nat → ℚ) : Nat → Mat → Mat
  | 0, X => hiddenStage m training R 0 X
  | k + 1, X => hiddenStage m training R (k + 1) (stagesUpTo m training R k X)

/-- Shape of a matrix: the list of its row lengths. -/
def matShape (X : Mat) : List Nat := X.map List.length

/-- `g` maps every vector to a non-negative vector summing to `1`. -/
def IsNormalizing (g : Vec → Vec) : Prop :=
  ∀ v, (∀ x ∈ g v, 0 ≤ x) ∧ (g v).sum = 1

/-- Parameter supply standing for the default random initialiser, weights. -/
def zeroW : Nat → Nat → Nat → ℚ := fun _ _ _ => 0

/-- Parameter supply standing for the default random initialiser, biases. -/
def zeroB : Nat → Nat → ℚ := fun _ _ => 0

/-- The module produced by
`init 2 2 (.list [3]) 1 0 id id false zeroW zeroB`, written out. -/
def sampleModule : BackpropModule :=
  { input_dim := 2
    output_dim := 2
    hidden_units := .list [3]
    hidden_layers := 1
    dropout_percent := 0
    activation := id
    output_activation := id
    layers := [mkLinear 2 3 (zeroW 0) (zeroB 0), mkLinear 3 2 (zeroW 1) (zeroB 1)]
    device := "cpu" }

/-- A second sample stream, used to compare two runs. -/
def oneW : Nat → Nat → Nat → ℚ := fun _ _ _ => 1

/-- A concrete normalizing transform: all mass on the first entry.  It keeps
the length of non-empty rows, like the `Softmax` default. -/
def unitMass : Vec → Vec
  | [] => [1]
  | _ :: t => 1 :: t.map (fun _ => 0)

/-- The network of the concrete C8 scenario: `input_dim=4`, `output_dim=3`,
`hidden_units=[8]`, `hidden_layers=1`, `dropout_percent=0`, with the
normalizing output transform; equal to
`init 4 3 (.list [8]) 1 0 id (fun Y => Y.map unitMass) false zeroW zeroB`. -/
def scenarioModule : BackpropModule :=
  { input_dim := 4
    output_dim := 3
    hidden_units := .list [8]
    hidden_layers := 1
    dropout_percent := 0
    activation := id
    output_activation := fun Y => Y.map unitMass
    layers := [mkLinear 4 8 (zeroW 0) (zeroB 0), mkLinear 8 3 (zeroW 1) (zeroB 1)]
    device := "cpu" }

/-! ### Helper lemmas -/

/-! ### Claims -/

/-- **C1.**  Constructing with a `hidden_units` list whose length differs
from `hidden_layers` fails synchronously with `ValueError`, for every
configuration. -/
theorem init_length_mismatch_valueError (a b : Nat) (hu : List Nat) (hl : Nat)
    (p : ℚ) (act oa : Mat → Mat) (cu : Bool) (w : Nat → Nat → Nat → ℚ)
    (bb : Nat → Nat → ℚ) (h : hu.length ≠ hl) :
    init a b (.list hu) hl p act oa cu w bb = .error .valueError := by
  simp only [init, if_pos h]

/-- Witness for C1: `hidden_units=[8,8]`, `hidden_layers=1` fails with
`ValueError`. -/
theorem init_length_mismatch_valueError_witness :
    [8, 8].length ≠ 1 ∧
      init 4 3 (.list [8, 8]) 1 0 id id false zeroW zeroB = .error .valueError :=
  ⟨by decide,
    init_length_mismatch_valueError 4 3 [8, 8] 1 0 id id false zeroW zeroB (by decide)⟩

/-- **C9.**  A constructor call that leaves `hidden_units` at its documented
default value `10` (a plain `int`) raises the configuration `ValueError`
regardless of all other arguments: the `isinstance(hidden_units, list)` check
rejects every non-list. -/
theorem init_default_hidden_units_valueError (a b hl : Nat) (p : ℚ)
    (act oa : Mat → Mat) (cu : Bool) (w : Nat → Nat → Nat → ℚ)
    (bb : Nat → Nat → ℚ) :
    init a b (.int 10) hl p act oa cu w bb = .error .valueError := rfl

/-- **C5** (code bug).  The docstring types `hidden_units` as `{int}` and
defaults it to `10`, and the spec says a single integer is broadcast to all
hidden layers; the code instead rejects every integer.  Evaluating the
constructor at the failing input `hidden_units = 8`, `hidden_layers = 1`
(where broadcasting would give the valid `[8]`) yields `ValueError`. -/
theorem init_scalar_hidden_units_rejected :
    init 4 3 (.int 8) 1 0 id id false zeroW zeroB = .error .valueError := rfl

/-- **C10.**  With `hidden_units=[]` and `hidden_layers=0` the configuration
check passes but `self.hidden_units[0]` raises `IndexError`; consequently
every successful construction has `hidden_layers ≥ 1`. -/
theorem init_empty_hidden_units_indexError :
    (∀ (a b : Nat) (p : ℚ) (act oa : Mat → Mat) (cu : Bool)
        (w : Nat → Nat → Nat → ℚ) (bb : Nat → Nat → ℚ),
      init a b (.list []) 0 p act oa cu w bb = .error .indexError) ∧
    (∀ (a b : Nat) (hu : HiddenUnits) (hl : Nat) (p : ℚ) (act oa : Mat → Mat)
        (cu : Bool) (w : Nat → Nat → Nat → ℚ) (bb : Nat → Nat → ℚ)
        (m : BackpropModule),
      init a b hu hl p act oa cu w bb = .ok m → 1 ≤ hl) := by
  refine ⟨fun a b p act oa cu w bb => rfl, ?_⟩
  intro a b hu hl p act oa cu w bb m h
  match hu with
  | .int n => exact absurd h (by simp [init])
  | .list [] =>
    simp only [init] at h
    split at h
    · exact absurd h (by simp)
    · exact absurd h (by simp)
  | .list (h0 :: rest) =>
    simp only [init] at h
    split at h
    · exact absurd h (by simp)
    · next hcond => simp at hcond; omega

/-- Witness for C10: the hypothesis of the second conjunct discharged at a
concrete successful construction. -/
theorem init_empty_hidden_units_indexError_witness :
    init 2 2 (.list [3]) 1 0 id id false zeroW zeroB = .ok sampleModule ∧ 1 ≤ 1 :=
  ⟨rfl,
    init_empty_hidden_units_indexError.2 2 2 (.list [3]) 1 0 id id false zeroW zeroB
      sampleModule rfl⟩

/-- Indexing into a list of the shape built by `init`:
head, mapped `range'` middle, singleton tail. -/
theorem wiring_aux {α : Type} (L0 Lout : α) (f : Nat → α) (n : Nat) (d : α) :
    (L0 :: ((List.range' 1 n).map f ++ [Lout])).length = n + 2 ∧
    (L0 :: ((List.range' 1 n).map f ++ [Lout])).getD 0 d = L0 ∧
    (∀ k, 1 ≤ k → k < n + 1 →
      (L0 :: ((List.range' 1 n).map f ++ [Lout])).getD k d = f k) ∧
    (L0 :: ((List.range' 1 n).map f ++ [Lout])).getD (n + 1) d = Lout := by
  refine ⟨by simp [List.length_range'], List.getD_cons_zero, ?_, ?_⟩
  · intro k hk1 hk2
    obtain ⟨j, rfl⟩ : ∃ j, k = j + 1 := ⟨k - 1, by omega⟩
    rw [List.getD_cons_succ, List.getD_eq_getElem?_getD, List.getElem?_append,
      if_pos (by simp [List.length_range']; omega), List.getElem?_map,
      List.getElem?_range' 1 1 (by omega)]
    simp [Nat.add_comm 1 j]
  · rw [List.getD_cons_succ, List.getD_eq_getElem?_getD,
      List.getElem?_append_right (by simp [List.length_range'])]
    simp [List.length_range']

/-- **C2.**  A successful construction from a list of positive widths
allocates exactly `hidden_layers + 1` linear units, wired
`input_dim → hu[0]`, `hu[k-1] → hu[k]` for `1 ≤ k < hidden_layers`, and
`hu[-1] → output_dim`; adjacent widths agree. -/
theorem init_layer_wiring (a b : Nat) (hu : List Nat) (hl : Nat) (p : ℚ)
    (act oa : Mat → Mat) (cu : Bool) (w : Nat → Nat → Nat → ℚ)
    (bb : Nat → Nat → ℚ) (m : BackpropModule) (hpos : ∀ x ∈ hu, 0 < x)
    (h : init a b (.list hu) hl p act oa cu w bb = .ok m) :
    m.layers.length = hl + 1 ∧
    ((m.layers.getD 0 default).inFeatures = a ∧
      (m.layers.getD 0 default).outFeatures = hu.getD 0 0) ∧
    (∀ k, 1 ≤ k → k < hl →
      (m.layers.getD k default).inFeatures = hu.getD (k - 1) 0 ∧
      (m.layers.getD k default).outFeatures = hu.getD k 0) ∧
    ((m.layers.getD hl default).inFeatures = hu.getD (hl - 1) 0 ∧
      (m.layers.getD hl default).outFeatures = b) ∧
    (∀ i, 1 ≤ i → i ≤ hl →
      (m.layers.getD i default).inFeatures =
        (m.layers.getD (i - 1) default).outFeatures) := by
  match hu with
  | [] =>
    simp only [init] at h
    split at h
    · exact absurd h (by simp)
    · exact absurd h (by simp)
  | h0 :: rest =>
    simp only [init] at h
    split at h
    · exact absurd h (by simp)
    · next hcond =>
      simp only [ne_eq, Decidable.not_not, List.length_cons] at hcond
      rw [Except.ok.injEq] at h
      subst hcond
      have hlay : m.layers =
          mkLinear a h0 (w 0) (bb 0) ::
            ((List.range' 1 (rest.length + 1 - 1)).map
              (fun layer => mkLinear ((h0 :: rest).getD (layer - 1) 0)
                ((h0 :: rest).getD layer 0) (w layer) (bb layer)) ++
            [mkLinear ((h0 :: rest).getLast (List.cons_ne_nil h0 rest)) b
              (w (rest.length + 1)) (bb (rest.length + 1))]) :=
        (congrArg BackpropModule.layers h).symm
      rw [Nat.add_sub_cancel] at hlay
      obtain ⟨haux1, haux2, haux3, haux4⟩ := wiring_aux (mkLinear a h0 (w 0) (bb 0))
        (mkLinear ((h0 :: rest).getLast (List.cons_ne_nil h0 rest)) b
          (w (rest.length + 1)) (bb (rest.length + 1)))
        (fun layer => mkLinear ((h0 :: rest).getD (layer - 1) 0)
          ((h0 :: rest).getD layer 0) (w layer) (bb layer))
        rest.length default
      have hlast_getD : (h0 :: rest).getLast (List.cons_ne_nil h0 rest) =
          (h0 :: rest).getD (rest.length + 1 - 1) 0 := by
        rw [List.getLast_eq_getElem, List.getD_eq_getElem?_getD,
          List.getElem?_eq_getElem (by simp)]
        simp
      have hget0 : m.layers.getD 0 default = mkLinear a h0 (w 0) (bb 0) := by
        rw [hlay]
        exact haux2
      have hmid : ∀ k, 1 ≤ k → k < rest.length + 1 →
          m.layers.getD k default =
            mkLinear ((h0 :: rest).getD (k - 1) 0) ((h0 :: rest).getD k 0)
              (w k) (bb k) := by
        intro k hk1 hk2
        rw [hlay]
        exact haux3 k hk1 hk2
      have hlast : m.layers.getD (rest.length + 1) default =
          mkLinear ((h0 :: rest).getLast (List.cons_ne_nil h0 rest)) b
            (w (rest.length + 1)) (bb (rest.length + 1)) := by
        rw [hlay]
        exact haux4
      refine ⟨?_, ?_, ?_, ?_, ?_⟩
      · rw [hlay]
        exact haux1
      · rw [hget0]
        exact ⟨rfl, rfl⟩
      · intro k hk1 hk2
        rw [hmid k hk1 hk2]
        exact ⟨rfl, rfl⟩
      · rw [hlast, hlast_getD]
        exact ⟨rfl, rfl⟩
      · intro i hi1 hi2
        have hin : (m.layers.getD i default).inFeatures =
            (h0 :: rest).getD (i - 1) 0 := by
          rcases Nat.lt_or_ge i (rest.length + 1) with hilt | hige
          · rw [hmid i hi1 hilt]
            rfl
          · have hieq : i = rest.length + 1 := by omega
            subst hieq
            rw [hlast, hlast_getD]
            rfl
        have hout : (m.layers.getD (i - 1) default).outFeatures =
            (h0 :: rest).getD (i - 1) 0 := by
          rcases Nat.eq_or_lt_of_le hi1 with h1 | h1
          · rw [← h1]
            simp only [Nat.sub_self]
            rw [hget0]
            rfl
          · rw [hmid (i - 1) (by omega) (by omega)]
            rfl
        rw [hin, hout]

/-- Witness for C2 at `input_dim=2`, `output_dim=2`, `hidden_units=[3]`,
`hidden_layers=1`. -/
theorem init_layer_wiring_witness :
    (∀ x ∈ [3], 0 < x) ∧
    init 2 2 (.list [3]) 1 0 id id false zeroW zeroB = .ok sampleModule ∧
    (sampleModule.layers.length = 1 + 1 ∧
      ((sampleModule.layers.getD 0 default).inFeatures = 2 ∧
        (sampleModule.layers.getD 0 default).outFeatures = [3].getD 0 0) ∧
      (∀ k, 1 ≤ k → k < 1 →
        (sampleModule.layers.getD k default).inFeatures = [3].getD (k - 1) 0 ∧
        (sampleModule.layers.getD k default).outFeatures = [3].getD k 0) ∧
      ((sampleModule.layers.getD 1 default).inFeatures = [3].getD (1 - 1) 0 ∧
        (sampleModule.layers.getD 1 default).outFeatures = 2) ∧
      (∀ i, 1 ≤ i → i ≤ 1 →
        (sampleModule.layers.getD i default).inFeatures =
          (sampleModule.layers.getD (i - 1) default).outFeatures)) :=
  ⟨by decide, rfl,
    init_layer_wiring 2 2 [3] 1 0 id id false zeroW zeroB sampleModule
      (by decide) rfl⟩

/-- A successful `init` determines every field of the module: the argument
list was non-empty of length `hidden_layers`, and `layers` is the
head/middle/tail stack built in the source. -/
theorem init_ok_fields (a b : Nat) (hu : HiddenUnits) (hl : Nat) (p : ℚ)
    (act oa : Mat → Mat) (cu : Bool) (w : Nat → Nat → Nat → ℚ)
    (bb : Nat → Nat → ℚ) (m : BackpropModule)
    (h : init a b hu hl p act oa cu w bb = .ok m) :
    ∃ h0 rest, hu = .list (h0 :: rest) ∧ hl = rest.length + 1 ∧
      m.input_dim = a ∧ m.output_dim = b ∧ m.hidden_units = hu ∧
      m.hidden_layers = hl ∧ m.dropout_percent = p ∧ m.activation = act ∧
      m.output_activation = oa ∧
      m.layers =
        mkLinear a h0 (w 0) (bb 0) ::
          ((List.range' 1 (hl - 1)).map
            (fun layer => mkLinear ((h0 :: rest).getD (layer - 1) 0)
              ((h0 :: rest).getD layer 0) (w layer) (bb layer)) ++
          [mkLinear ((h0 :: rest).getLast (List.cons_ne_nil h0 rest)) b
            (w hl) (bb hl)]) ∧
      m.device = (if cu then "cuda" else "cpu") := by
  match hu with
  | .int n => exact absurd h (by simp [init])
  | .list [] =>
    simp only [init] at h
    split at h
    · exact absurd h (by simp)
    · exact absurd h (by simp)
  | .list (h0 :: rest) =>
    simp only [init] at h
    split at h
    · exact absurd h (by simp)
    · next hcond =>
      simp only [ne_eq, Decidable.not_not, List.length_cons] at hcond
      rw [Except.ok.injEq] at h
      subst hcond
      subst h
      exact ⟨h0, rest, rfl, rfl, rfl, rfl, rfl, rfl, rfl, rfl, rfl, rfl, rfl⟩

/-- The loop `for i in range(1, hidden_layers)` seeded with the first stage
equals the recursive sequential composition of stages `0` through `n`. -/
theorem foldl_stages (m : BackpropModule) (training : Bool)
    (R : Nat → Nat → Nat → ℚ) (n : Nat) (X : Mat) :
    (List.range' 1 n).foldl (fun acc i => hiddenStage m training R i acc)
      (hiddenStage m training R 0 X) = stagesUpTo m training R n X := by
  induction n with
  | zero => rfl
  | succ k ih =>
    rw [List.range'_concat, List.foldl_append, ih]
    simp [stagesUpTo, Nat.add_comm 1 k]

/-- **C3.**  For a successfully constructed network, `forward` is exactly the
sequential composition: stage 0 (linear 0, activation, dropout), then stages
`1 … hidden_layers - 1` in order, then the final linear unit followed by
`output_activation`; no branch inspects data values. -/
theorem forward_sequential (a b : Nat) (hu : HiddenUnits) (hl : Nat) (p : ℚ)
    (act oa : Mat → Mat) (cu : Bool) (w : Nat → Nat → Nat → ℚ)
    (bb : Nat → Nat → ℚ) (m : BackpropModule) (training : Bool)
    (R : Nat → Nat → Nat → ℚ) (X : Mat)
    (h : init a b hu hl p act oa cu w bb = .ok m) :
    forward m training R X =
      m.output_activation ((m.layers.getD m.hidden_layers default).applyBatch
        (stagesUpTo m training R (m.hidden_layers - 1) X)) := by
  simp only [forward]
  rw [foldl_stages]

/-- Witness for C3 on the sample network. -/
theorem forward_sequential_witness :
    init 2 2 (.list [3]) 1 0 id id false zeroW zeroB = .ok sampleModule ∧
    forward sampleModule false zeroW [[1, 2]] =
      sampleModule.output_activation
        ((sampleModule.layers.getD 1 default).applyBatch
          (stagesUpTo sampleModule false zeroW 0 [[1, 2]])) :=
  ⟨rfl, forward_sequential 2 2 (.list [3]) 1 0 id id false zeroW zeroB
    sampleModule false zeroW [[1, 2]] rfl⟩

/-- With `p = 0` and non-negative uniform samples, training-mode dropout
keeps every entry and rescales by `1/(1-0) = 1`. -/
theorem dropoutRow_zero (u : Nat → ℚ) (hu : ∀ j, 0 ≤ u j) :
    ∀ j r, dropoutRow 0 u j r = r := by
  intro j r
  induction r generalizing j with
  | nil => rfl
  | cons x xs ih =>
    rw [dropoutRow, if_neg (not_lt.mpr (hu j)), ih (j + 1)]
    norm_num

theorem dropoutMatAux_zero (u : Nat → Nat → ℚ) (hu : ∀ i j, 0 ≤ u i j) :
    ∀ i X, dropoutMatAux 0 u i X = X := by
  intro i X
  induction X generalizing i with
  | nil => rfl
  | cons r rs ih =>
    rw [dropoutMatAux, dropoutRow_zero (u i) (hu i), ih (i + 1)]

/-- Dropout is the identity in evaluation mode, and in training mode when
`p = 0` (all uniform samples lie in `[0,1)`, hence are non-negative). -/
theorem dropout_identity (training : Bool) (p : ℚ) (u : Nat → Nat → ℚ) (X : Mat)
    (h : training = false ∨ (p = 0 ∧ ∀ i j, 0 ≤ u i j)) :
    dropoutApply training p u X = X := by
  rcases h with h | ⟨hp, hu⟩
  · subst h
    rfl
  · subst hp
    unfold dropoutApply
    split
    · exact dropoutMatAux_zero u hu 0 X
    · rfl

/-- **C6.**  Whenever dropout has no stochastic effect — evaluation mode, or
training mode with `dropout_percent = 0` — two forward passes on identical
input (with possibly different dropout randomness) produce identical
output. -/
theorem forward_deterministic (m : BackpropModule) (training : Bool)
    (R1 R2 : Nat → Nat → Nat → ℚ) (X : Mat)
    (h : training = false ∨
      (m.dropout_percent = 0 ∧ (∀ c i j, 0 ≤ R1 c i j) ∧
        (∀ c i j, 0 ≤ R2 c i j))) :
    forward m training R1 X = forward m training R2 X := by
  have hstage : ∀ i Y, hiddenStage m training R1 i Y = hiddenStage m training R2 i Y := by
    intro i Y
    unfold hiddenStage
    rcases h with h | ⟨hp, h1, h2⟩
    · subst h
      rfl
    · rw [dropout_identity _ _ _ _ (Or.inr ⟨hp, fun x y => h1 i x y⟩),
        dropout_identity _ _ _ _ (Or.inr ⟨hp, fun x y => h2 i x y⟩)]
  have hfold : ∀ (l : List Nat) (Y : Mat),
      l.foldl (fun acc i => hiddenStage m training R1 i acc) Y =
        l.foldl (fun acc i => hiddenStage m training R2 i acc) Y := by
    intro l
    induction l with
    | nil => intro Y; rfl
    | cons x l ih =>
      intro Y
      rw [List.foldl_cons, List.foldl_cons, hstage, ih]
  simp only [forward]
  rw [hstage, hfold]

/-- Witness for C6: evaluation mode, two different randomness streams. -/
theorem forward_deterministic_witness :
    (false = false ∨
      (sampleModule.dropout_percent = 0 ∧ (∀ c i j, 0 ≤ zeroW c i j) ∧
        (∀ c i j, 0 ≤ oneW c i j))) ∧
    forward sampleModule false zeroW [[1, 2]] =
      forward sampleModule false oneW [[1, 2]] :=
  ⟨Or.inl rfl,
    forward_deterministic sampleModule false zeroW oneW [[1, 2]] (Or.inl rfl)⟩

/-- **C7.**  A forward pass leaves all structural state unchanged: the Python
method only rebinds its local `X` and never assigns to `self`, so the
state-passing form returns the receiver with every field intact. -/
theorem forwardS_frame (m : BackpropModule) (training : Bool)
    (R : Nat → Nat → Nat → ℚ) (X : Mat) :
    (forwardS m training R X).2.input_dim = m.input_dim ∧
    (forwardS m training R X).2.output_dim = m.output_dim ∧
    (forwardS m training R X).2.hidden_units = m.hidden_units ∧
    (forwardS m training R X).2.hidden_layers = m.hidden_layers ∧
    (forwardS m training R X).2.layers = m.layers ∧
    (forwardS m training R X).2.activation = m.activation ∧
    (forwardS m training R X).2.output_activation = m.output_activation ∧
    (forwardS m training R X).2.device = m.device :=
  ⟨rfl, rfl, rfl, rfl, rfl, rfl, rfl, rfl⟩

/-! ### Shape lemmas -/

theorem dropoutRow_length (p : ℚ) (u : Nat → ℚ) :
    ∀ j r, (dropoutRow p u j r).length = r.length := by
  intro j r
  induction r generalizing j with
  | nil => rfl
  | cons x xs ih =>
    rw [dropoutRow]
    simp [ih (j + 1)]

theorem matShape_dropoutMatAux (p : ℚ) (u : Nat → Nat → ℚ) :
    ∀ i X, matShape (dropoutMatAux p u i X) = matShape X := by
  intro i X
  induction X generalizing i with
  | nil => rfl
  | cons r rs ih =>
    rw [dropoutMatAux]
    simp only [matShape, List.map_cons]
    rw [dropoutRow_length]
    have := ih (i + 1)
    simp only [matShape] at this
    rw [this]

theorem matShape_dropoutApply (training : Bool) (p : ℚ) (u : Nat → Nat → ℚ)
    (X : Mat) : matShape (dropoutApply training p u X) = matShape X := by
  unfold dropoutApply
  split
  · exact matShape_dropoutMatAux p u 0 X
  · rfl

theorem length_eq_of_matShape {X Y : Mat} (h : matShape X = matShape Y) :
    X.length = Y.length := by
  have := congrArg List.length h
  simpa [matShape] using this

theorem apply_mkLinear_length (inF outF : Nat) (w : Nat → Nat → ℚ)
    (b : Nat → ℚ) (x : Vec) :
    ((mkLinear inF outF w b).apply x).length = outF := by
  simp [mkLinear, LinearLayer.apply]

theorem matShape_applyBatch_mkLinear (inF outF : Nat) (w : Nat → Nat → ℚ)
    (b : Nat → ℚ) (Y : Mat) :
    matShape ((mkLinear inF outF w b).applyBatch Y) =
      List.replicate Y.length outF := by
  unfold matShape LinearLayer.applyBatch
  rw [List.map_map]
  have : (List.length ∘ (mkLinear inF outF w b).apply) =
      fun _ : Vec => outF := by
    funext x
    exact apply_mkLinear_length inF outF w b x
  rw [this, List.map_const']

/-- One stage of `forward` preserves the number of rows of the batch,
provided the stored activation preserves shapes. -/
theorem hiddenStage_length (m : BackpropModule) (training : Bool)
    (R : Nat → Nat → Nat → ℚ) (i : Nat) (Y : Mat)
    (hact : ∀ Z, matShape (m.activation Z) = matShape Z) :
    (hiddenStage m training R i Y).length = Y.length := by
  unfold hiddenStage
  have h1 := matShape_dropoutApply training m.dropout_percent (R i)
    (m.activation ((m.layers.getD i default).applyBatch Y))
  have h2 := hact ((m.layers.getD i default).applyBatch Y)
  calc (dropoutApply training m.dropout_percent (R i)
        (m.activation ((m.layers.getD i default).applyBatch Y))).length
      = (m.activation ((m.layers.getD i default).applyBatch Y)).length :=
        length_eq_of_matShape h1
    _ = ((m.layers.getD i default).applyBatch Y).length :=
        length_eq_of_matShape h2
    _ = Y.length := List.length_map Y _

theorem foldl_stages_length (m : BackpropModule) (training : Bool)
    (R : Nat → Nat → Nat → ℚ)
    (hact : ∀ Z, matShape (m.activation Z) = matShape Z) :
    ∀ (l : List Nat) (Y : Mat),
      (l.foldl (fun acc i => hiddenStage m training R i acc) Y).length =
        Y.length := by
  intro l
  induction l with
  | nil => intro Y; rfl
  | cons x l ih =>
    intro Y
    rw [List.foldl_cons, ih, hiddenStage_length m training R x Y hact]

/-- **C4.**  For a successfully constructed network whose activations are
shape-preserving, a batch of shape `(B, input_dim)` comes out of `forward`
with shape `(B, output_dim)`. -/
theorem forward_shape (a b : Nat) (hu : List Nat) (hl : Nat) (p : ℚ)
    (act oa : Mat → Mat) (cu : Bool) (w : Nat → Nat → Nat → ℚ)
    (bb : Nat → Nat → ℚ) (m : BackpropModule) (training : Bool)
    (R : Nat → Nat → Nat → ℚ) (B : Nat) (X : Mat)
    (hact : ∀ Y, matShape (act Y) = matShape Y)
    (hoa : ∀ Y, matShape (oa Y) = matShape Y)
    (hinit : init a b (.list hu) hl p act oa cu w bb = .ok m)
    (hB : 1 ≤ B) (hX : matShape X = List.replicate B a) :
    matShape (forward m training R X) = List.replicate B b := by
  obtain ⟨h0, rest, hhu, hhl, _, _, _, hml, _, hmact, hmoa, hlay, _⟩ :=
    init_ok_fields a b (.list hu) hl p act oa cu w bb m hinit
  subst hhl
  rw [Nat.add_sub_cancel] at hlay
  have hactm : ∀ Z, matShape (m.activation Z) = matShape Z := by
    intro Z
    rw [hmact]
    exact hact Z
  simp only [forward]
  rw [hmoa, hoa, hml, hlay]
  rw [(wiring_aux (mkLinear a h0 (w 0) (bb 0))
    (mkLinear ((h0 :: rest).getLast (List.cons_ne_nil h0 rest)) b
      (w (rest.length + 1)) (bb (rest.length + 1)))
    (fun layer => mkLinear ((h0 :: rest).getD (layer - 1) 0)
      ((h0 :: rest).getD layer 0) (w layer) (bb layer))
    rest.length default).2.2.2]
  rw [matShape_applyBatch_mkLinear]
  have hXlen : X.length = B := by
    have := congrArg List.length hX
    simpa [matShape] using this
  rw [Nat.add_sub_cancel, foldl_stages_length m training R hactm,
    hiddenStage_length m training R 0 X hactm, hXlen]

/-- Witness for C4: batch of shape `(1, 2)` through the sample network comes
out with shape `(1, 2)`. -/
theorem forward_shape_witness :
    (∀ Y, matShape (id Y) = matShape Y) ∧
    init 2 2 (.list [3]) 1 0 id id false zeroW zeroB = .ok sampleModule ∧
    1 ≤ 1 ∧ matShape [[1, 2]] = List.replicate 1 2 ∧
    matShape (forward sampleModule false zeroW [[1, 2]]) =
      List.replicate 1 2 :=
  ⟨fun _ => rfl, rfl, by decide, rfl,
    forward_shape 2 2 [3] 1 0 id id false zeroW zeroB sampleModule false zeroW
      1 [[1, 2]] (fun _ => rfl) (fun _ => rfl) rfl (by decide) rfl⟩

/-- **C8.**  If the stored `output_activation` applies a normalizing
transform `g` to each row, every row of `forward`'s output is non-negative
and sums to `1`; and in the spec's concrete scenario (`input_dim=4`,
`output_dim=3`, `hidden_units=[8]`, `hidden_layers=1`, `dropout_percent=0`,
input batch of shape `(2, 4)`) the output has shape `(2, 3)` with every row
summing to `1`. -/
theorem forward_normalizing_rows :
    (∀ (m : BackpropModule) (training : Bool) (R : Nat → Nat → Nat → ℚ)
        (X : Mat) (g : Vec → Vec),
      m.output_activation = (fun Y => Y.map g) → IsNormalizing g →
      ∀ row ∈ forward m training R X, (∀ x ∈ row, 0 ≤ x) ∧ row.sum = 1) ∧
    matShape (forward scenarioModule false zeroW
      [[1, 2, 3, 4], [5, 6, 7, 8]]) = List.replicate 2 3 ∧
    ∀ row ∈ forward scenarioModule false zeroW [[1, 2, 3, 4], [5, 6, 7, 8]],
      row.sum = 1 := by
  have hval : forward scenarioModule false zeroW [[1, 2, 3, 4], [5, 6, 7, 8]] =
      [[1, 0, 0], [1, 0, 0]] := by decide
  refine ⟨?_, by rw [hval]; rfl, ?_⟩
  · intro m training R X g hoa hg row hrow
    simp only [forward, hoa] at hrow
    rw [List.mem_map] at hrow
    obtain ⟨r, _, hr⟩ := hrow
    subst hr
    exact ⟨(hg r).1, (hg r).2⟩
  · rw [hval]
    intro row hrow
    simp only [List.mem_cons, List.not_mem_nil, or_false] at hrow
    rcases hrow with h | h <;> subst h <;> norm_num

theorem unitMass_normalizing : IsNormalizing unitMass := by
  intro v
  match v with
  | [] =>
    refine ⟨?_, by simp [unitMass]⟩
    intro x hx
    simp [unitMass] at hx
    rw [hx]
    norm_num
  | y :: t =>
    constructor
    · intro x hx
      simp [unitMass] at hx
      rcases hx with hx | ⟨-, hx⟩ <;> rw [hx] <;> norm_num
    · simp [unitMass, List.map_const', List.sum_replicate]

/-- Witness for C8 on the spec's concrete scenario: a `(2, 4)` batch, every
output row non-negative and summing to `1`. -/
theorem forward_normalizing_rows_witness :
    (scenarioModule.output_activation = fun Y => Y.map unitMass) ∧
    IsNormalizing unitMass ∧
    init 4 3 (.list [8]) 1 0 id (fun Y => Y.map unitMass) false zeroW zeroB =
      .ok scenarioModule ∧
    ∀ row ∈ forward scenarioModule false zeroW [[1, 2, 3, 4], [5, 6, 7, 8]],
      (∀ x ∈ row, 0 ≤ x) ∧ row.sum = 1 :=
  ⟨rfl, unitMass_normalizing, rfl,
    forward_normalizing_rows.1 scenarioModule false zeroW
      [[1, 2, 3, 4], [5, 6, 7, 8]] unitMass rfl unitMass_normalizing⟩
